import Mathlib

/-!
# Inflated headers registry (machine/memory/inflated_headers.cpp)

A shallow embedding of `rubinius::memory::InflatedHeaders`: the registry's
`allocate`, its reclamation pass `deallocate_headers` and the change-gated
`Diagnostics::log`.

The three functions are translated from `inflated_headers.cpp`. The classes they
use (`InflatedHeader`, `Allocator<InflatedHeader>`, `diagnostics::Diagnostics`)
are declared in headers that are not among the sources; each of them is either
taken as a parameter or modelled from the specification, and says so.

Memory model: a chunk pointer `chunks_[i]` and an element pointer `&chunk[j]`
are the address `(i, j)`; the slot records are a function of that address and a
write through a pointer is a function update.
-/

namespace rubinius
namespace memory

/-! ## Slot record -/

/-- Modelled from the spec: the slot record `InflatedHeader` (declared in
oop.hpp, which is not among the sources). Fields, from the data model: the mark
stamp (matched against a collector-supplied generation value; `none` is an
unstamped slot), the lock state (owner identity, recursion count, wait-queue
handle), the optional cached identity hash and the optional forwarding
reference. -/
structure InflatedHeader where
  mark : Option Nat
  owner : Option Nat
  recursion : Nat
  wait_queue : Option Nat
  identity_hash : Option Nat
  forwarding : Option Nat
deriving DecidableEq, Repr

namespace InflatedHeader

/-- Modelled from the spec: `marked_p(stamp)`, "stored stamp equals argument". -/
def marked_p (h : InflatedHeader) (which : Nat) : Bool :=
  decide (h.mark = some which)

/-- Modelled from the spec: `clear()`, "resets all fields to a pristine,
idempotent free state", dropping lock, hash and forwarding content and leaving
the slot unstamped. -/
def clear (_h : InflatedHeader) : InflatedHeader :=
  { mark := none, owner := none, recursion := 0, wait_queue := none,
    identity_hash := none, forwarding := none }

end InflatedHeader

/-! ## Chunked slot allocator -/

/-- Modelled from the spec: the class `Allocator<InflatedHeader>` (declared in
memory/allocator.hpp, which is not among the sources). The members the registry
reads and writes are named in inflated_headers.cpp: `chunks_` (`chunks_size` is
`chunks_.size()` and `chunks_ i j` is the record `chunks_[i][j]`), the constant
`cChunkSize` and the counter `in_use_`. The free chain is from the data model:
the indices of the free slots, head first. -/
structure Allocator where
  chunks_size : Nat
  chunks_ : Nat → Nat → InflatedHeader
  cChunkSize : Nat
  in_use_ : Nat
  free_list_ : List Nat

namespace Allocator

/-- A write through the pointer `&chunks_[i][j]`. -/
def store (a : Allocator) (i j : Nat) (h : InflatedHeader) : Allocator :=
  { a with chunks_ := fun i' j' => if i' = i ∧ j' = j then h else a.chunks_ i' j' }

/-- Modelled from the spec: `from_index(index)`, "chunk = index / chunk_capacity,
offset = index % chunk_capacity"; the pointer is the address of that record. -/
def from_index (a : Allocator) (index : Nat) : Nat × Nat :=
  (index / a.cChunkSize, index % a.cChunkSize)

/-- The indices `chunk_number * chunk_capacity + offset` of the slots of the
chunks `0 .. chunks_size - 1` that are in the cleared state, in index order. -/
def clear_slots (a : Allocator) : List Nat :=
  (List.range a.chunks_size).flatMap fun i =>
    ((List.range a.cChunkSize).filter fun j =>
      decide (a.chunks_ i j = (a.chunks_ i j).clear)).map fun j => i * a.cChunkSize + j

/-- Modelled from the spec: `rebuild_freelist(chunk_liveness)` (declared in
memory/allocator.hpp, which is not among the sources), "reconstructs the free
chain over all currently-clear slots"; the in-use counter is left at the number
of slots that are not on the chain. Reusing a chunk without live slots ahead of
the others is "an allowed but not mandatory optimization" and is not done: the
liveness flags do not change the result, chunks are never removed and no record
is written. -/
def rebuild_freelist (a : Allocator) (_chunk_marks : List Bool) : Allocator :=
  { a with
    free_list_ := a.clear_slots
    in_use_ := a.chunks_size * a.cChunkSize - a.clear_slots.length }

/-- Modelled from the spec: `allocate_index(&needs_gc)` (declared in
memory/allocator.hpp, which is not among the sources) with a configured slot
ceiling. It "pops the free chain head if non-empty"; otherwise it appends a
chunk of cleared records and issues the next sequential index from it, and "if
the free chain is empty and appending a chunk would ... exceed the configured
ceiling, sets needs_collection = true but still returns a usable index". -/
def allocate_index (ceiling : Nat) (a : Allocator) (needs_gc : Bool) :
    Nat × Bool × Allocator :=
  match a.free_list_ with
  | index :: rest => (index, needs_gc, { a with free_list_ := rest, in_use_ := a.in_use_ + 1 })
  | [] =>
    let first := a.chunks_size * a.cChunkSize
    let grown : Allocator :=
      { a with
        chunks_size := a.chunks_size + 1
        chunks_ := fun i j =>
          if i = a.chunks_size then (a.chunks_ i j).clear else a.chunks_ i j
        free_list_ := (List.range (a.cChunkSize - 1)).map fun j => first + 1 + j
        in_use_ := a.in_use_ + 1 }
    (first, needs_gc || decide (ceiling < (a.chunks_size + 1) * a.cChunkSize), grown)

end Allocator

/-! ## Diagnostics -/

/-- Modelled from the spec: the class `InflatedHeaders::Diagnostics` (declared
in memory/inflated_headers.hpp, which is not among the sources). Its counters
`objects_`, `bytes_` and `collections_` are named in inflated_headers.cpp; the
dirty flag is the one of its base class `diagnostics::Diagnostics`. The counters
are printed with `%ld`; a pass counts no more slots than memory holds, so they
are natural numbers here. -/
structure Diagnostics where
  modified_ : Bool
  objects_ : Nat
  bytes_ : Nat
  collections_ : Nat
deriving DecidableEq, Repr

namespace Diagnostics

/-- Modelled from the spec: `modified_p()` of the base class
`diagnostics::Diagnostics` (not among the sources) reads the dirty flag. -/
def modified_p (d : Diagnostics) : Bool := d.modified_

/-- Modelled from the spec: `modify()` of the base class marks the diagnostics
dirty. -/
def modify (d : Diagnostics) : Diagnostics := { d with modified_ := true }

/-- Modelled from the spec: `diagnostics::Diagnostics::log()` of the base class;
counters are emitted "only if the dirty flag is set since the previous
emission", so an emission resets the flag. -/
def base_log (d : Diagnostics) : Diagnostics := { d with modified_ := false }

/-- The line `logger::write` is called with, the three `%ld` filled in. -/
def line (objects bytes collections : Nat) : String :=
  "inflated headers: diagnostics: objects: " ++ toString objects ++
    ", bytes: " ++ toString bytes ++
    ", collections: " ++ toString collections ++ "\n"

/-- `InflatedHeaders::Diagnostics::log()`; the second component is the log the
logger has written so far. -/
def log (d : Diagnostics) (logger : List String) : Diagnostics × List String :=
  if !d.modified_p then (d, logger)
  else
    let d1 := d.base_log
    (d1, logger ++ [line d1.objects_ d1.bytes_ d1.collections_])

end Diagnostics

/-! ## Registry -/

/-- The registry `InflatedHeaders`: the members `allocator_` and `diagnostics_`
that inflated_headers.cpp uses. -/
structure InflatedHeaders where
  allocator_ : Allocator
  diagnostics_ : Diagnostics

/-- The owner object handed to `allocate`; only its inline header word is kept. -/
structure ObjectHeader where
  header : Nat
deriving DecidableEq, Repr

/-- Modelled from the spec: the part of `STATE` that `allocate` acts on. The
collector is an external collaborator and `schedule_full_collection(reason,
metric_counter)` is a "fire-and-forget" request; the requests made through
`state->memory()` are recorded oldest first, each by its reason. -/
structure State where
  full_collections : List String

/-- `UINT32_MAX`. -/
def UINT32_MAX : Nat := 4294967295

/-- What a call of `allocate` hands back: the returned pointer and `*index`. -/
structure Allocation where
  header : Nat × Nat
  index : Nat
deriving DecidableEq, Repr

namespace InflatedHeaders

/-- `InflatedHeaders::allocate(STATE, ObjectHeader* obj, uint32_t* index)`. The
allocator's `allocate_index` is a parameter: it takes the allocator and the
incoming value of `needs_gc` and gives the index (a `uintptr_t`, here any natural
number), the outgoing `needs_gc` and the allocator it leaves. The cast
`(uint32_t)header_index` is `% 2 ^ 32`. `rubinius::bug` does not return: the call
ends in `Except.error` with its message. `atomic::memory_barrier()` orders
memory accesses between threads and changes no value. -/
def allocate (allocate_index : Allocator → Bool → Nat × Bool × Allocator)
    (state : State) (self : InflatedHeaders) (_obj : ObjectHeader) :
    Except String (Allocation × InflatedHeaders × State) :=
  let needs_gc := false
  let (header_index, needs_gc, allocator) := allocate_index self.allocator_ needs_gc
  if header_index > UINT32_MAX then
    Except.error "Rubinius can't handle more than 4G inflated headers active at the same time"
  else
    let index := header_index % 2 ^ 32
    let header := allocator.from_index header_index
    let self1 : InflatedHeaders := { self with allocator_ := allocator }
    if needs_gc then
      let self2 : InflatedHeaders :=
        { self1 with diagnostics_ :=
            { self1.diagnostics_ with collections_ := self1.diagnostics_.collections_ + 1 } }
      let state1 : State :=
        { state with full_collections := state.full_collections ++ ["Inflated headers"] }
      Except.ok ({ header := header, index := index }, self2, state1)
    else
      Except.ok ({ header := header, index := index }, self1, state)

/-- One iteration of the inner loop of `deallocate_headers`, at chunk `i` and
offset `j`, on the registry and the local vector `chunk_marks`. -/
def scan_slot (mark : Nat) (i j : Nat) (s : InflatedHeaders × List Bool) :
    InflatedHeaders × List Bool :=
  let header := s.1.allocator_.chunks_ i j
  if header.marked_p mark then
    ({ s.1 with diagnostics_ :=
        { s.1.diagnostics_ with objects_ := s.1.diagnostics_.objects_ + 1 } },
      s.2.set i true)
  else
    ({ s.1 with allocator_ := s.1.allocator_.store i j header.clear }, s.2)

/-- The inner loop `for(j = 0; j < cChunkSize; j++)` over the chunk `i`; the
body does not change `cChunkSize`. -/
def scan_chunk (mark : Nat) (i : Nat) (s : InflatedHeaders × List Bool) :
    InflatedHeaders × List Bool :=
  (List.range s.1.allocator_.cChunkSize).foldl (fun s j => scan_slot mark i j s) s

/-- Lines 40 to 57 of `deallocate_headers`: the vector `chunk_marks` of
`chunks_.size()` entries `false`, `objects_ = 0`, and the loop over the chunks,
whose body does not change `chunks_.size()`. The result is the registry and
`chunk_marks` as they stand at the call of `rebuild_freelist`. -/
def scan (self : InflatedHeaders) (mark : Nat) : InflatedHeaders × List Bool :=
  let chunk_marks := List.replicate self.allocator_.chunks_size false
  let self0 : InflatedHeaders :=
    { self with diagnostics_ := { self.diagnostics_ with objects_ := 0 } }
  (List.range self0.allocator_.chunks_size).foldl (fun s i => scan_chunk mark i s)
    (self0, chunk_marks)

/-- `InflatedHeaders::deallocate_headers(unsigned int mark)`. The allocator's
`rebuild_freelist` and the constant `sizeof(InflatedHeader)` are parameters; the
product `in_use_ * sizeof(InflatedHeader)` is a number of bytes of records held
in memory and does not overflow. -/
def deallocate_headers (rebuild_freelist : Allocator → List Bool → Allocator)
    (sizeof_InflatedHeader : Nat) (self : InflatedHeaders) (mark : Nat) : InflatedHeaders :=
  let (self1, chunk_marks) := scan self mark
  let self2 : InflatedHeaders :=
    { self1 with allocator_ := rebuild_freelist self1.allocator_ chunk_marks }
  let self3 : InflatedHeaders :=
    { self2 with diagnostics_ :=
        { self2.diagnostics_ with bytes_ := self2.allocator_.in_use_ * sizeof_InflatedHeader } }
  { self3 with diagnostics_ := self3.diagnostics_.modify }

/-- What the scan of `deallocate_headers` leaves in a slot that held `h`: the
record itself when it carries the stamp, the cleared record otherwise. -/
def swept (mark : Nat) (h : InflatedHeader) : InflatedHeader :=
  if h.marked_p mark then h else h.clear

end InflatedHeaders

/-! ## Sequences of allocations -/

/-- One call of `allocate` in a sequence of calls: the index the allocator's
`allocate_index` issued, the value of `needs_gc` after it, and what the call
handed back. -/
structure Call where
  issued : Nat
  needs_gc : Bool
  allocation : Allocation
deriving DecidableEq, Repr

namespace InflatedHeaders

/-- A sequence of calls of `allocate`, one per owner, with nothing in between;
it stops at the first call that ends in `rubinius::bug`. -/
def allocate_all (allocate_index : Allocator → Bool → Nat × Bool × Allocator) :
    State → InflatedHeaders → List ObjectHeader →
      Except String (List Call × InflatedHeaders × State)
  | state, self, [] => Except.ok ([], self, state)
  | state, self, obj :: objs =>
    match allocate allocate_index state self obj with
    | Except.error e => Except.error e
    | Except.ok (r, self1, state1) =>
      match allocate_all allocate_index state1 self1 objs with
      | Except.error e => Except.error e
      | Except.ok (calls, self2, state2) =>
        Except.ok
          ({ issued := (allocate_index self.allocator_ false).1
             needs_gc := (allocate_index self.allocator_ false).2.1
             allocation := r } :: calls, self2, state2)

end InflatedHeaders

/-! ## Example states -/

/-- A registry whose allocator has no chunk yet, with chunks of four slots. -/
def fresh_registry : InflatedHeaders :=
  { allocator_ :=
      { chunks_size := 0
        chunks_ := fun _ _ =>
          { mark := none, owner := none, recursion := 0, wait_queue := none,
            identity_hash := none, forwarding := none }
        cChunkSize := 4
        in_use_ := 0
        free_list_ := [] }
    diagnostics_ := { modified_ := false, objects_ := 0, bytes_ := 0, collections_ := 0 } }

/-- Scenario A after the trace: one chunk of four slots; the slots 0 and 2 carry
the stamp 7, the slot 1 holds a hash but no stamp, the slot 3 is free. -/
def traced_registry : InflatedHeaders :=
  { allocator_ :=
      { chunks_size := 1
        chunks_ := fun i j =>
          if i = 0 ∧ j = 0 then
            { mark := some 7, owner := some 3, recursion := 2, wait_queue := none,
              identity_hash := none, forwarding := none }
          else if i = 0 ∧ j = 1 then
            { mark := none, owner := none, recursion := 0, wait_queue := none,
              identity_hash := some 99, forwarding := none }
          else if i = 0 ∧ j = 2 then
            { mark := some 7, owner := none, recursion := 0, wait_queue := none,
              identity_hash := some 5, forwarding := none }
          else
            { mark := none, owner := none, recursion := 0, wait_queue := none,
              identity_hash := none, forwarding := none }
        cChunkSize := 4
        in_use_ := 3
        free_list_ := [3] }
    diagnostics_ := { modified_ := false, objects_ := 11, bytes_ := 5, collections_ := 0 } }

/-- The owners of nine allocations in a row. -/
def nine_owners : List ObjectHeader :=
  (List.range 9).map fun n => { header := n }

/-- Scenario B: nine allocations from a fresh registry whose allocator has chunks
of four slots and a ceiling of eight slots. -/
def nine_allocations : Except String (List Call × InflatedHeaders × State) :=
  InflatedHeaders.allocate_all (Allocator.allocate_index 8) { full_collections := [] }
    fresh_registry nine_owners

/-- Scenario A before the trace: three allocations from a fresh registry. -/
def three_allocations : Except String (List Call × InflatedHeaders × State) :=
  InflatedHeaders.allocate_all (Allocator.allocate_index 8) { full_collections := [] }
    fresh_registry [{ header := 10 }, { header := 11 }, { header := 12 }]

/-- Scenario C: a registry whose allocator is past the 32-bit ceiling, the next
free index being `2 ^ 32`. -/
def exhausted_registry : InflatedHeaders :=
  { fresh_registry with
    allocator_ := { fresh_registry.allocator_ with free_list_ := [4294967296] } }

/-- What a run handed back, or the fallback when it ended in `rubinius::bug`. -/
def returned {α : Type} (run : Except String α) (fallback : α) : α :=
  match run with
  | Except.ok a => a
  | Except.error _ => fallback

/-- The calls, registry and state of scenario B. -/
def nine_returned : List Call × InflatedHeaders × State :=
  returned nine_allocations ([], fresh_registry, { full_collections := [] })

/-- The calls, registry and state of the three allocations of scenario A. -/
def three_returned : List Call × InflatedHeaders × State :=
  returned three_allocations ([], fresh_registry, { full_collections := [] })

/-- The first allocation from a fresh registry. -/
def first_returned : Allocation × InflatedHeaders × State :=
  returned
    (InflatedHeaders.allocate (Allocator.allocate_index 8) { full_collections := [] }
      fresh_registry { header := 10 })
    ({ header := (0, 0), index := 0 }, fresh_registry, { full_collections := [] })

/-- Diagnostics after a pass that found two live records of 48 bytes. -/
def dirty_diagnostics : Diagnostics :=
  { modified_ := true, objects_ := 2, bytes_ := 96, collections_ := 1 }

/-! ## Closed form of the scan -/

namespace InflatedHeaders

theorem scan_slot_fold (mark i k : Nat) (s : InflatedHeaders × List Bool) :
    (List.range k).foldl (fun s j => scan_slot mark i j s) s =
      ({ allocator_ :=
          { s.1.allocator_ with
            chunks_ := fun i' j' =>
              if i' = i ∧ j' < k then swept mark (s.1.allocator_.chunks_ i' j')
              else s.1.allocator_.chunks_ i' j' }
         diagnostics_ :=
          { s.1.diagnostics_ with
            objects_ := s.1.diagnostics_.objects_ +
              ∑ j ∈ Finset.range k,
                if (s.1.allocator_.chunks_ i j).marked_p mark = true then 1 else 0 } },
        if (List.range k).any (fun j => (s.1.allocator_.chunks_ i j).marked_p mark) = true
        then s.2.set i true else s.2) := by
  induction k with
  | zero => simp
  | succ k ih =>
    rw [List.range_succ, List.foldl_append, ih]
    simp only [List.foldl_cons, List.foldl_nil, scan_slot, lt_self_iff_false, and_false,
      if_false, Finset.sum_range_succ, List.any_append, List.any_cons, List.any_nil,
      Bool.or_false, Bool.or_eq_true]
    by_cases hk : (s.1.allocator_.chunks_ i k).marked_p mark = true
    · simp only [hk, if_true, or_true, Prod.mk.injEq, InflatedHeaders.mk.injEq,
        Allocator.mk.injEq, Diagnostics.mk.injEq, true_and, and_true]
      refine ⟨⟨?_, ?_⟩, ?_⟩
      · funext i' j'
        by_cases h1 : i' = i
        · by_cases h2 : j' < k
          · simp [h1, h2, Nat.lt_succ_of_lt h2]
          · by_cases h3 : j' = k
            · subst h1; subst h3; simp [swept, hk]
            · have : ¬ j' < k + 1 := by omega
              simp [h1, h2, this]
        · simp [h1]
      · omega
      · split <;> simp [List.set_set]
    · simp only [hk, if_false, or_false, Prod.mk.injEq, InflatedHeaders.mk.injEq,
        Allocator.mk.injEq, Diagnostics.mk.injEq, true_and, and_true, Allocator.store,
        add_zero, Bool.false_eq_true]
      funext i' j'
      by_cases h1 : i' = i
      · by_cases h2 : j' < k
        · have : ¬ j' = k := by omega
          simp [h1, h2, this, Nat.lt_succ_of_lt h2]
        · by_cases h3 : j' = k
          · subst h1; subst h3; simp [swept, hk]
          · have : ¬ j' < k + 1 := by omega
            simp [h1, h2, h3, this]
      · simp [h1]

theorem scan_chunk_eq (mark i : Nat) (s : InflatedHeaders × List Bool) :
    scan_chunk mark i s =
      ({ allocator_ :=
          { s.1.allocator_ with
            chunks_ := fun i' j' =>
              if i' = i ∧ j' < s.1.allocator_.cChunkSize then
                swept mark (s.1.allocator_.chunks_ i' j')
              else s.1.allocator_.chunks_ i' j' }
         diagnostics_ :=
          { s.1.diagnostics_ with
            objects_ := s.1.diagnostics_.objects_ +
              ∑ j ∈ Finset.range s.1.allocator_.cChunkSize,
                if (s.1.allocator_.chunks_ i j).marked_p mark = true then 1 else 0 } },
        if (List.range s.1.allocator_.cChunkSize).any
            (fun j => (s.1.allocator_.chunks_ i j).marked_p mark) = true
        then s.2.set i true else s.2) := by
  unfold scan_chunk
  exact scan_slot_fold mark i _ s

theorem scan_chunk_fold (mark n : Nat) (s : InflatedHeaders × List Bool) :
    (List.range n).foldl (fun s i => scan_chunk mark i s) s =
      ({ allocator_ :=
          { s.1.allocator_ with
            chunks_ := fun i' j' =>
              if i' < n ∧ j' < s.1.allocator_.cChunkSize then
                swept mark (s.1.allocator_.chunks_ i' j')
              else s.1.allocator_.chunks_ i' j' }
         diagnostics_ :=
          { s.1.diagnostics_ with
            objects_ := s.1.diagnostics_.objects_ +
              ∑ i ∈ Finset.range n, ∑ j ∈ Finset.range s.1.allocator_.cChunkSize,
                if (s.1.allocator_.chunks_ i j).marked_p mark = true then 1 else 0 } },
        (List.range n).foldl
          (fun m i =>
            if (List.range s.1.allocator_.cChunkSize).any
                (fun j => (s.1.allocator_.chunks_ i j).marked_p mark) = true
            then m.set i true else m) s.2) := by
  induction n with
  | zero => simp
  | succ n ih =>
    rw [List.range_succ, List.foldl_append, ih, List.foldl_append]
    simp only [List.foldl_cons, List.foldl_nil, scan_chunk_eq, lt_self_iff_false, false_and,
      if_false, Finset.sum_range_succ, Prod.mk.injEq, InflatedHeaders.mk.injEq,
      Allocator.mk.injEq, Diagnostics.mk.injEq, true_and, and_true]
    refine ⟨?_, ?_⟩
    · funext i' j'
      by_cases h2 : j' < s.1.allocator_.cChunkSize
      · by_cases h1 : i' < n
        · have : ¬ i' = n := by omega
          simp [h1, h2, this, Nat.lt_succ_of_lt h1]
        · by_cases h3 : i' = n
          · subst h3; simp [h2]
          · have : ¬ i' < n + 1 := by omega
            simp [h1, h2, h3, this]
      · simp [h2]
    · exact Nat.add_assoc _ _ _

theorem scan_eq (self : InflatedHeaders) (mark : Nat) :
    scan self mark =
      ({ allocator_ :=
          { self.allocator_ with
            chunks_ := fun i j =>
              if i < self.allocator_.chunks_size ∧ j < self.allocator_.cChunkSize then
                swept mark (self.allocator_.chunks_ i j)
              else self.allocator_.chunks_ i j }
         diagnostics_ :=
          { self.diagnostics_ with
            objects_ :=
              ∑ i ∈ Finset.range self.allocator_.chunks_size,
                ∑ j ∈ Finset.range self.allocator_.cChunkSize,
                  if (self.allocator_.chunks_ i j).marked_p mark = true then 1 else 0 } },
        (List.range self.allocator_.chunks_size).foldl
          (fun m i =>
            if (List.range self.allocator_.cChunkSize).any
                (fun j => (self.allocator_.chunks_ i j).marked_p mark) = true
            then m.set i true else m)
          (List.replicate self.allocator_.chunks_size false)) := by
  unfold scan
  simp only [scan_chunk_fold, Nat.zero_add]

theorem marks_fold_length (f : Nat → Bool) (n : Nat) (m : List Bool) :
    ((List.range n).foldl (fun m i => if f i = true then m.set i true else m) m).length
      = m.length := by
  induction n with
  | zero => simp
  | succ n ih =>
    rw [List.range_succ, List.foldl_append]
    simp only [List.foldl_cons, List.foldl_nil]
    split <;> simp [ih]

theorem marks_fold_getElem? (f : Nat → Bool) (n : Nat) (m : List Bool) (i : Nat) :
    ((List.range n).foldl (fun m i => if f i = true then m.set i true else m) m)[i]?
      = if i < n ∧ f i = true ∧ i < m.length then some true else m[i]? := by
  induction n with
  | zero => simp
  | succ n ih =>
    rw [List.range_succ, List.foldl_append]
    simp only [List.foldl_cons, List.foldl_nil]
    by_cases hn : f n = true
    · simp only [hn, if_true, List.getElem?_set, marks_fold_length, ih]
      by_cases h1 : n = i
      · subst h1
        by_cases h2 : n < m.length
        · simp [hn, h2]
        · have h3 : m[n]? = none := List.getElem?_eq_none (by omega)
          simp [h2, h3]
      · by_cases h4 : i < n
        · simp [h1, h4, Nat.lt_succ_of_lt h4]
        · have : ¬ i < n + 1 := by omega
          simp [h1, h4, this]
    · simp only [hn, if_false, ih, Bool.false_eq_true]
      by_cases h1 : i = n
      · subst h1; simp [hn]
      · by_cases h4 : i < n
        · simp [h4, Nat.lt_succ_of_lt h4]
        · have : ¬ i < n + 1 := by omega
          simp [h4, this]

theorem sum_marked_eq_card (a : Allocator) (mark : Nat) :
    (∑ i ∈ Finset.range a.chunks_size, ∑ j ∈ Finset.range a.cChunkSize,
        if (a.chunks_ i j).marked_p mark = true then 1 else 0)
      = ((Finset.range a.chunks_size ×ˢ Finset.range a.cChunkSize).filter
          (fun p => (a.chunks_ p.1 p.2).marked_p mark = true)).card := by
  rw [Finset.card_filter, Finset.sum_product]

theorem marked_p_clear (h : InflatedHeader) (mark : Nat) :
    h.clear.marked_p mark = false := by
  simp [InflatedHeader.marked_p, InflatedHeader.clear]

theorem clear_clear (h : InflatedHeader) : h.clear.clear = h.clear := rfl

theorem marked_p_swept (mark : Nat) (h : InflatedHeader) :
    (swept mark h).marked_p mark = h.marked_p mark := by
  unfold swept
  by_cases hm : h.marked_p mark = true
  · simp [hm]
  · simp [hm, marked_p_clear]

theorem swept_swept (mark : Nat) (h : InflatedHeader) :
    swept mark (swept mark h) = swept mark h := by
  unfold swept
  by_cases hm : h.marked_p mark = true
  · simp [hm]
  · simp [hm, marked_p_clear, clear_clear]

theorem swept_eq_clear_iff (mark : Nat) (h : InflatedHeader) :
    swept mark h = (swept mark h).clear ↔ h.marked_p mark = false := by
  unfold swept
  by_cases hm : h.marked_p mark = true
  · simp only [hm, if_true, Bool.true_eq_false, iff_false]
    intro hc
    rw [hc, marked_p_clear] at hm
    exact Bool.false_ne_true hm
  · simp [hm, clear_clear]

theorem length_flatMap_range (f : Nat → List Nat) (n : Nat) :
    ((List.range n).flatMap f).length = ∑ i ∈ Finset.range n, (f i).length := by
  induction n with
  | zero => simp
  | succ n ih =>
    rw [List.range_succ, List.flatMap_append, List.length_append, ih, Finset.sum_range_succ]
    simp

theorem length_filter_range (p : Nat → Bool) (n : Nat) :
    ((List.range n).filter p).length = ∑ j ∈ Finset.range n, if p j = true then 1 else 0 := by
  induction n with
  | zero => simp
  | succ n ih =>
    rw [List.range_succ, List.filter_append, List.length_append, ih, Finset.sum_range_succ]
    by_cases hp : p n = true <;> simp [hp]

theorem clear_slots_length (a : Allocator) :
    a.clear_slots.length =
      ∑ i ∈ Finset.range a.chunks_size, ∑ j ∈ Finset.range a.cChunkSize,
        if a.chunks_ i j = (a.chunks_ i j).clear then 1 else 0 := by
  unfold Allocator.clear_slots
  rw [length_flatMap_range]
  refine Finset.sum_congr rfl fun i _ => ?_
  rw [List.length_map, length_filter_range]
  refine Finset.sum_congr rfl fun j _ => ?_
  simp

theorem in_use_after_scan (self : InflatedHeaders) (mark : Nat) :
    ((scan self mark).1.allocator_.rebuild_freelist (scan self mark).2).in_use_
      = (scan self mark).1.diagnostics_.objects_ := by
  simp only [Allocator.rebuild_freelist, clear_slots_length, scan_eq]
  have h1 : (∑ i ∈ Finset.range self.allocator_.chunks_size,
      ∑ j ∈ Finset.range self.allocator_.cChunkSize,
        if (if i < self.allocator_.chunks_size ∧ j < self.allocator_.cChunkSize then
              swept mark (self.allocator_.chunks_ i j) else self.allocator_.chunks_ i j)
            = (if i < self.allocator_.chunks_size ∧ j < self.allocator_.cChunkSize then
              swept mark (self.allocator_.chunks_ i j) else self.allocator_.chunks_ i j).clear
        then 1 else 0)
      = ∑ i ∈ Finset.range self.allocator_.chunks_size,
          ∑ j ∈ Finset.range self.allocator_.cChunkSize,
            if (self.allocator_.chunks_ i j).marked_p mark = true then 0 else 1 := by
    refine Finset.sum_congr rfl fun i hi => Finset.sum_congr rfl fun j hj => ?_
    rw [Finset.mem_range] at hi hj
    simp only [hi, hj, and_self, if_true, swept_eq_clear_iff]
    by_cases hm : (self.allocator_.chunks_ i j).marked_p mark = true <;> simp [hm]
  have h2 : (∑ i ∈ Finset.range self.allocator_.chunks_size,
        ∑ j ∈ Finset.range self.allocator_.cChunkSize,
          if (self.allocator_.chunks_ i j).marked_p mark = true then 0 else 1)
      + (∑ i ∈ Finset.range self.allocator_.chunks_size,
        ∑ j ∈ Finset.range self.allocator_.cChunkSize,
          if (self.allocator_.chunks_ i j).marked_p mark = true then 1 else 0)
      = self.allocator_.chunks_size * self.allocator_.cChunkSize := by
    rw [← Finset.sum_add_distrib]
    have : ∀ i ∈ Finset.range self.allocator_.chunks_size,
        ((∑ j ∈ Finset.range self.allocator_.cChunkSize,
          if (self.allocator_.chunks_ i j).marked_p mark = true then 0 else 1)
        + ∑ j ∈ Finset.range self.allocator_.cChunkSize,
          if (self.allocator_.chunks_ i j).marked_p mark = true then 1 else 0)
        = self.allocator_.cChunkSize := by
      intro i _
      rw [← Finset.sum_add_distrib]
      have : ∀ j ∈ Finset.range self.allocator_.cChunkSize,
          ((if (self.allocator_.chunks_ i j).marked_p mark = true then 0 else 1)
            + if (self.allocator_.chunks_ i j).marked_p mark = true then 1 else 0) = 1 := by
        intro j _
        by_cases hm : (self.allocator_.chunks_ i j).marked_p mark = true <;> simp [hm]
      rw [Finset.sum_congr rfl this]
      simp
    rw [Finset.sum_congr rfl this]
    simp
  rw [h1]
  omega

theorem deallocate_headers_eq (rebuild_freelist : Allocator → List Bool → Allocator)
    (sizeof_InflatedHeader : Nat) (self : InflatedHeaders) (mark : Nat) :
    deallocate_headers rebuild_freelist sizeof_InflatedHeader self mark =
      { allocator_ := rebuild_freelist (scan self mark).1.allocator_ (scan self mark).2
        diagnostics_ :=
          { modified_ := true
            objects_ := (scan self mark).1.diagnostics_.objects_
            bytes_ :=
              (rebuild_freelist (scan self mark).1.allocator_ (scan self mark).2).in_use_
                * sizeof_InflatedHeader
            collections_ := (scan self mark).1.diagnostics_.collections_ } } := by
  rfl

theorem scan_frame (self other : InflatedHeaders) (mark : Nat)
    (h1 : other.allocator_.chunks_size = self.allocator_.chunks_size)
    (h2 : other.allocator_.chunks_ = self.allocator_.chunks_)
    (h3 : other.allocator_.cChunkSize = self.allocator_.cChunkSize) :
    scan other mark =
      ({ allocator_ :=
          { other.allocator_ with chunks_ := (scan self mark).1.allocator_.chunks_ }
         diagnostics_ :=
          { other.diagnostics_ with objects_ := (scan self mark).1.diagnostics_.objects_ } },
        (scan self mark).2) := by
  rw [scan_eq other mark, scan_eq self mark, h1, h2, h3]

theorem scan_scan (self : InflatedHeaders) (mark : Nat) :
    scan (scan self mark).1 mark = scan self mark := by
  rw [scan_eq (scan self mark).1 mark]
  simp only [scan_eq self mark, Prod.mk.injEq, InflatedHeaders.mk.injEq, Allocator.mk.injEq,
    Diagnostics.mk.injEq, true_and, and_true]
  refine ⟨⟨?_, ?_⟩, ?_⟩
  · funext i j
    by_cases h : i < self.allocator_.chunks_size ∧ j < self.allocator_.cChunkSize
    · simp [h, swept_swept]
    · simp [h]
  · refine Finset.sum_congr rfl fun i hi => Finset.sum_congr rfl fun j hj => ?_
    rw [Finset.mem_range] at hi hj
    simp [hi, hj, marked_p_swept]
  · apply List.ext_getElem?
    intro i
    rw [marks_fold_getElem?, marks_fold_getElem?]
    by_cases hi : i < self.allocator_.chunks_size
    · have : ((List.range self.allocator_.cChunkSize).any fun j =>
          (if i < self.allocator_.chunks_size ∧ j < self.allocator_.cChunkSize then
            swept mark (self.allocator_.chunks_ i j)
           else self.allocator_.chunks_ i j).marked_p mark)
          = (List.range self.allocator_.cChunkSize).any fun j =>
            (self.allocator_.chunks_ i j).marked_p mark := by
        rw [Bool.eq_iff_iff]
        simp only [List.any_eq_true, List.mem_range]
        constructor
        · rintro ⟨j, hj, hm⟩
          refine ⟨j, hj, ?_⟩
          simpa [hi, hj, marked_p_swept] using hm
        · rintro ⟨j, hj, hm⟩
          refine ⟨j, hj, ?_⟩
          simpa [hi, hj, marked_p_swept] using hm
      rw [this]
    · simp [hi]

/-- C1: after `deallocate_headers(mark)`, whatever the allocator's
`rebuild_freelist` does and whatever `objects_` held before, `objects_` is the
number of slots `(i, j)`, `i` a chunk and `j` below `cChunkSize`, whose record
satisfied `marked_p(mark)` when the pass began. -/
theorem deallocate_headers_objects (rebuild_freelist : Allocator → List Bool → Allocator)
    (sizeof_InflatedHeader : Nat) (self : InflatedHeaders) (mark : Nat) :
    (deallocate_headers rebuild_freelist sizeof_InflatedHeader self mark).diagnostics_.objects_
      = ((Finset.range self.allocator_.chunks_size ×ˢ
            Finset.range self.allocator_.cChunkSize).filter
          (fun p => (self.allocator_.chunks_ p.1 p.2).marked_p mark = true)).card := by
  rw [deallocate_headers_eq, scan_eq]
  exact sum_marked_eq_card _ _

/-- C2: for a slot `(i, j)` of the allocator, after the scan of
`deallocate_headers(mark)`, and after the whole pass with the free chain rebuilt
as the specification describes: a record that satisfied `marked_p(mark)` before
is unchanged and still satisfies it; a record that did not is the record
`clear()` produces and does not satisfy it; so `marked_p(mark)` holds afterwards
exactly when it held before. -/
theorem deallocate_headers_slot (sizeof_InflatedHeader : Nat) (self : InflatedHeaders)
    (mark i j : Nat) (hi : i < self.allocator_.chunks_size)
    (hj : j < self.allocator_.cChunkSize) :
    (deallocate_headers Allocator.rebuild_freelist sizeof_InflatedHeader self
        mark).allocator_.chunks_ i j = (scan self mark).1.allocator_.chunks_ i j ∧
    ((self.allocator_.chunks_ i j).marked_p mark = true →
      (scan self mark).1.allocator_.chunks_ i j = self.allocator_.chunks_ i j ∧
      ((scan self mark).1.allocator_.chunks_ i j).marked_p mark = true) ∧
    ((self.allocator_.chunks_ i j).marked_p mark = false →
      (scan self mark).1.allocator_.chunks_ i j = (self.allocator_.chunks_ i j).clear ∧
      ((scan self mark).1.allocator_.chunks_ i j).marked_p mark = false) ∧
    (((scan self mark).1.allocator_.chunks_ i j).marked_p mark = true ↔
      (self.allocator_.chunks_ i j).marked_p mark = true) := by
  have hs : (scan self mark).1.allocator_.chunks_ i j
      = swept mark (self.allocator_.chunks_ i j) := by
    rw [scan_eq]; simp [hi, hj]
  refine ⟨rfl, ?_, ?_, ?_⟩
  · intro hm
    rw [hs]
    simp [swept, hm]
  · intro hm
    rw [hs]
    simp [swept, hm, marked_p_clear]
  · rw [hs, marked_p_swept]

/-- C3: after `deallocate_headers(mark)` the diagnostics are dirty and `bytes_`
is the allocator's `in_use_` times `sizeof(InflatedHeader)`; with the free chain
rebuilt as the specification describes, `in_use_` is the count of the pass, so
`bytes_ = objects_ * sizeof(InflatedHeader)`. -/
theorem deallocate_headers_bytes (sizeof_InflatedHeader : Nat) (self : InflatedHeaders)
    (mark : Nat) :
    (∀ rebuild_freelist : Allocator → List Bool → Allocator,
      (deallocate_headers rebuild_freelist sizeof_InflatedHeader self mark).diagnostics_.bytes_
        = (deallocate_headers rebuild_freelist sizeof_InflatedHeader self
            mark).allocator_.in_use_ * sizeof_InflatedHeader ∧
      (deallocate_headers rebuild_freelist sizeof_InflatedHeader self
        mark).diagnostics_.modified_p = true) ∧
    (deallocate_headers Allocator.rebuild_freelist sizeof_InflatedHeader self
        mark).diagnostics_.bytes_
      = (deallocate_headers Allocator.rebuild_freelist sizeof_InflatedHeader self
          mark).diagnostics_.objects_ * sizeof_InflatedHeader := by
  refine ⟨fun rebuild_freelist => ⟨rfl, rfl⟩, ?_⟩
  rw [deallocate_headers_eq]
  simp only [in_use_after_scan]

/-- C8: in `deallocate_headers(mark)` the vector handed to `rebuild_freelist` is
`chunk_marks` as the scan leaves it; it has one entry per chunk, and the entry of
chunk `i` is `true` exactly when some slot of chunk `i` below `cChunkSize`
satisfied `marked_p(mark)`, and `false` otherwise. -/
theorem deallocate_headers_chunk_marks (self : InflatedHeaders) (mark : Nat) :
    (∀ (rebuild_freelist : Allocator → List Bool → Allocator) (sizeof_InflatedHeader : Nat),
      (deallocate_headers rebuild_freelist sizeof_InflatedHeader self mark).allocator_
        = rebuild_freelist (scan self mark).1.allocator_ (scan self mark).2) ∧
    (scan self mark).2.length = self.allocator_.chunks_size ∧
    ∀ i, i < self.allocator_.chunks_size →
      (((scan self mark).2[i]? = some true ↔
        ∃ j, j < self.allocator_.cChunkSize ∧
          (self.allocator_.chunks_ i j).marked_p mark = true) ∧
       ((scan self mark).2[i]? = some false ↔
        ¬ ∃ j, j < self.allocator_.cChunkSize ∧
          (self.allocator_.chunks_ i j).marked_p mark = true)) := by
  refine ⟨fun _ _ => rfl, ?_, ?_⟩
  · rw [scan_eq]
    simp only [marks_fold_length, List.length_replicate]
  · intro i hi
    have h2 : (scan self mark).2 =
        (List.range self.allocator_.chunks_size).foldl
          (fun m i =>
            if (List.range self.allocator_.cChunkSize).any
                (fun j => (self.allocator_.chunks_ i j).marked_p mark) = true
            then m.set i true else m)
          (List.replicate self.allocator_.chunks_size false) := by
      rw [scan_eq]
    rw [h2, marks_fold_getElem?]
    simp only [List.length_replicate, hi, true_and, and_true,
      List.getElem?_replicate, if_true, List.any_eq_true, List.mem_range]
    by_cases h : ∃ j, j < self.allocator_.cChunkSize ∧
        (self.allocator_.chunks_ i j).marked_p mark = true
    · simp [h]
    · simp [h]

/-- C9: the scan of `deallocate_headers(mark)` run a second time on the state
the first run left gives that same state again: every record, the count
`objects_` and `chunk_marks` are as after one run, whatever `objects_` held
before; a record that did not satisfy `marked_p(mark)` before the first run does
not satisfy it afterwards, so the second run does not count it. With the free
chain rebuilt as the specification describes, the same holds of two whole
passes. -/
theorem scan_idempotent (self : InflatedHeaders) (mark : Nat) :
    scan (scan self mark).1 mark = scan self mark ∧
    (∀ objects : Nat,
      (scan { self with diagnostics_ := { self.diagnostics_ with objects_ := objects } }
        mark).1.diagnostics_.objects_ = (scan self mark).1.diagnostics_.objects_) ∧
    (∀ i j, (self.allocator_.chunks_ i j).marked_p mark = false →
      ((scan self mark).1.allocator_.chunks_ i j).marked_p mark = false) ∧
    (∀ sizeof_InflatedHeader : Nat,
      deallocate_headers Allocator.rebuild_freelist sizeof_InflatedHeader
          (deallocate_headers Allocator.rebuild_freelist sizeof_InflatedHeader self mark) mark
        = deallocate_headers Allocator.rebuild_freelist sizeof_InflatedHeader self mark) := by
  refine ⟨scan_scan self mark, fun _ => ?_, ?_, ?_⟩
  · rw [scan_eq, scan_eq]
  · intro i j hm
    rw [scan_eq]
    by_cases h : i < self.allocator_.chunks_size ∧ j < self.allocator_.cChunkSize
    · simp [h, marked_p_swept, hm]
    · simp [h, hm]
  · intro sz
    have hX := scan_frame (scan self mark).1
      (deallocate_headers Allocator.rebuild_freelist sz self mark) mark rfl rfl rfl
    rw [scan_scan] at hX
    rw [deallocate_headers_eq Allocator.rebuild_freelist sz
      (deallocate_headers Allocator.rebuild_freelist sz self mark), hX]
    rfl

theorem allocate_eq (allocate_index : Allocator → Bool → Nat × Bool × Allocator)
    (state : State) (self : InflatedHeaders) (obj : ObjectHeader) :
    allocate allocate_index state self obj =
      if (allocate_index self.allocator_ false).1 > UINT32_MAX then
        Except.error
          "Rubinius can't handle more than 4G inflated headers active at the same time"
      else
        Except.ok
          ({ header := (allocate_index self.allocator_ false).2.2.from_index
                (allocate_index self.allocator_ false).1
             index := (allocate_index self.allocator_ false).1 % 2 ^ 32 },
           { allocator_ := (allocate_index self.allocator_ false).2.2
             diagnostics_ :=
              { self.diagnostics_ with
                collections_ := self.diagnostics_.collections_ +
                  if (allocate_index self.allocator_ false).2.1 = true then 1 else 0 } },
           { full_collections := state.full_collections ++
              if (allocate_index self.allocator_ false).2.1 = true then ["Inflated headers"]
              else [] }) := by
  unfold allocate
  by_cases hb : (allocate_index self.allocator_ false).1 > UINT32_MAX
  · simp [hb]
  · cases hg : (allocate_index self.allocator_ false).2.1 <;> simp [hb, hg]

theorem narrow_eq (header_index : Nat) (h : ¬ header_index > UINT32_MAX) :
    header_index % 2 ^ 32 = header_index := by
  apply Nat.mod_eq_of_lt
  unfold UINT32_MAX at h
  omega

theorem allocate_all_calls (allocate_index : Allocator → Bool → Nat × Bool × Allocator)
    (objs : List ObjectHeader) :
    ∀ (state : State) (self : InflatedHeaders) (calls : List Call) (self1 : InflatedHeaders)
      (state1 : State),
      allocate_all allocate_index state self objs = Except.ok (calls, self1, state1) →
      calls.length = objs.length ∧
      (∀ c ∈ calls, ¬ c.issued > UINT32_MAX ∧ c.allocation.index = c.issued % 2 ^ 32) ∧
      self1.diagnostics_.collections_ = self.diagnostics_.collections_ +
        (calls.filter fun c => c.needs_gc).length ∧
      state1.full_collections = state.full_collections ++
        List.replicate (calls.filter fun c => c.needs_gc).length "Inflated headers" := by
  induction objs with
  | nil =>
    intro state self calls self1 state1 h
    simp only [allocate_all, Except.ok.injEq, Prod.mk.injEq] at h
    obtain ⟨rfl, rfl, rfl⟩ := h
    simp
  | cons obj objs ih =>
    intro state self calls self1 state1 h
    rw [allocate_all, allocate_eq] at h
    by_cases hb : (allocate_index self.allocator_ false).1 > UINT32_MAX
    · simp [hb] at h
    · simp only [hb, if_false] at h
      split at h
      · simp at h
      · rename_i tl self2 state2 hrest
        simp only [Except.ok.injEq, Prod.mk.injEq] at h
        obtain ⟨rfl, rfl, rfl⟩ := h
        obtain ⟨hl, hc, hd, hs⟩ := ih _ _ _ _ _ hrest
        refine ⟨by simp [hl], ?_, ?_, ?_⟩
        · intro c hc1
          rcases List.mem_cons.mp hc1 with rfl | hc2
          · exact ⟨hb, rfl⟩
          · exact hc c hc2
        · rw [hd]
          cases hg : (allocate_index self.allocator_ false).2.1
          · simp [hg, List.filter_cons]
          · simp [hg, List.filter_cons]
            omega
        · rw [hs]
          cases hg : (allocate_index self.allocator_ false).2.1 <;>
            simp [hg, List.filter_cons, List.replicate_succ]

/-- C4: whatever index, flag and allocator `allocate_index` gives, `allocate`
ends in `rubinius::bug` exactly when the index is above `UINT32_MAX`, that is
outside the unsigned 32-bit range; otherwise it returns, with or without
`needs_gc`, the value written to `*index` is the allocator's index itself and the
returned pointer is `from_index` of that index. -/
theorem allocate_fatal_iff (allocate_index : Allocator → Bool → Nat × Bool × Allocator)
    (state : State) (self : InflatedHeaders) (obj : ObjectHeader) :
    ((∃ msg, allocate allocate_index state self obj = Except.error msg) ↔
      (allocate_index self.allocator_ false).1 > UINT32_MAX) ∧
    ((allocate_index self.allocator_ false).1 > UINT32_MAX ↔
      ¬ (allocate_index self.allocator_ false).1 < 2 ^ 32) ∧
    ((allocate_index self.allocator_ false).1 ≤ UINT32_MAX →
      ∃ self1 state1, allocate allocate_index state self obj =
        Except.ok
          ({ header := (allocate_index self.allocator_ false).2.2.from_index
                (allocate_index self.allocator_ false).1
             index := (allocate_index self.allocator_ false).1 }, self1, state1)) := by
  refine ⟨?_, ?_, ?_⟩
  · rw [allocate_eq]
    by_cases hb : (allocate_index self.allocator_ false).1 > UINT32_MAX
    · simp [hb]
    · simp [hb]
  · unfold UINT32_MAX
    omega
  · intro hle
    have hb : ¬ (allocate_index self.allocator_ false).1 > UINT32_MAX := by omega
    rw [allocate_eq, if_neg hb, narrow_eq _ hb]
    exact ⟨_, _, rfl⟩

/-- C5: a call of `allocate` that returns adds one to `collections_` and issues
one `schedule_full_collection` request when `allocate_index` left `needs_gc`
set, and leaves `collections_` and the requests as they were when it did not;
over a sequence of calls that all return, `collections_` grows by the number of
calls that saw `needs_gc` set, and as many requests are issued. -/
theorem allocate_collections :
    (∀ (allocate_index : Allocator → Bool → Nat × Bool × Allocator) (state : State)
        (self : InflatedHeaders) (obj : ObjectHeader) (r : Allocation)
        (self1 : InflatedHeaders) (state1 : State),
      allocate allocate_index state self obj = Except.ok (r, self1, state1) →
      ((allocate_index self.allocator_ false).2.1 = true →
        self1.diagnostics_.collections_ = self.diagnostics_.collections_ + 1 ∧
        state1.full_collections = state.full_collections ++ ["Inflated headers"]) ∧
      ((allocate_index self.allocator_ false).2.1 = false →
        self1.diagnostics_.collections_ = self.diagnostics_.collections_ ∧
        state1.full_collections = state.full_collections)) ∧
    (∀ (allocate_index : Allocator → Bool → Nat × Bool × Allocator) (state : State)
        (self : InflatedHeaders) (objs : List ObjectHeader) (calls : List Call)
        (self1 : InflatedHeaders) (state1 : State),
      allocate_all allocate_index state self objs = Except.ok (calls, self1, state1) →
      calls.length = objs.length ∧
      self1.diagnostics_.collections_ = self.diagnostics_.collections_ +
        (calls.filter fun c => c.needs_gc).length ∧
      state1.full_collections = state.full_collections ++
        List.replicate (calls.filter fun c => c.needs_gc).length "Inflated headers") := by
  constructor
  · intro allocate_index state self obj r self1 state1 h
    rw [allocate_eq] at h
    by_cases hb : (allocate_index self.allocator_ false).1 > UINT32_MAX
    · simp [hb] at h
    · simp only [hb, if_false, Except.ok.injEq, Prod.mk.injEq] at h
      obtain ⟨_, rfl, rfl⟩ := h
      constructor
      · intro hg; simp [hg]
      · intro hg; simp [hg]
  · intro allocate_index state self objs calls self1 state1 h
    obtain ⟨hl, _, hc, hs⟩ := allocate_all_calls allocate_index objs state self calls self1 state1 h
    exact ⟨hl, hc, hs⟩

/-- C6: in a sequence of calls of `allocate` that all return, each value written
to `*index` is the index `allocate_index` issued for that call, so the written
indices are pairwise distinct whenever the issued ones are. -/
theorem allocate_indices_distinct
    (allocate_index : Allocator → Bool → Nat × Bool × Allocator) (state : State)
    (self : InflatedHeaders) (objs : List ObjectHeader) (calls : List Call)
    (self1 : InflatedHeaders) (state1 : State)
    (h : allocate_all allocate_index state self objs = Except.ok (calls, self1, state1)) :
    calls.map (fun c => c.allocation.index) = calls.map (fun c => c.issued) ∧
    ((calls.map fun c => c.issued).Pairwise (fun a b => a ≠ b) →
      (calls.map fun c => c.allocation.index).Pairwise (fun a b => a ≠ b)) := by
  obtain ⟨_, hc, _, _⟩ := allocate_all_calls allocate_index objs state self calls self1 state1 h
  have hmap : calls.map (fun c => c.allocation.index) = calls.map (fun c => c.issued) := by
    apply List.map_congr_left
    intro c hmem
    rw [(hc c hmem).2, narrow_eq _ (hc c hmem).1]
  exact ⟨hmap, fun hd => hmap ▸ hd⟩

/-- C7: `log()` on diagnostics that are not dirty writes nothing and changes
nothing; on dirty diagnostics it writes one line, the text "inflated headers:
diagnostics: objects: O, bytes: B, collections: C" and a newline with the
current `objects_`, `bytes_` and `collections_` in decimal for O, B and C, keeps
the counters, and a second `log()` right after it writes nothing and changes
nothing. That the flag is down after an emission is the base class `log()`,
modelled from the specification. -/
theorem log_gated (d : Diagnostics) (logger : List String) :
    (d.modified_p = false → d.log logger = (d, logger)) ∧
    (d.modified_p = true →
      (d.log logger).2 = logger ++
        ["inflated headers: diagnostics: objects: " ++ toString d.objects_ ++
          ", bytes: " ++ toString d.bytes_ ++
          ", collections: " ++ toString d.collections_ ++ "\n"] ∧
      (d.log logger).1.modified_p = false ∧
      (d.log logger).1.objects_ = d.objects_ ∧
      (d.log logger).1.bytes_ = d.bytes_ ∧
      (d.log logger).1.collections_ = d.collections_ ∧
      (d.log logger).1.log (d.log logger).2 = d.log logger) := by
  constructor
  · intro h
    have hm : d.modified_ = false := h
    simp [Diagnostics.log, Diagnostics.modified_p, hm]
  · intro h
    have hm : d.modified_ = true := h
    simp [Diagnostics.log, Diagnostics.base_log, Diagnostics.modified_p, Diagnostics.line, hm]

/-- C10: `allocate` does not depend on its owner argument: for two owners the
outcome is the same, fatal or not, with the same index, pointer, diagnostics and
requests; and when it returns, the allocator it leaves, every slot record
included, is the one `allocate_index` left. -/
theorem allocate_owner_independent
    (allocate_index : Allocator → Bool → Nat × Bool × Allocator) (state : State)
    (self : InflatedHeaders) (obj1 obj2 : ObjectHeader) :
    allocate allocate_index state self obj1 = allocate allocate_index state self obj2 ∧
    ∀ (r : Allocation) (self1 : InflatedHeaders) (state1 : State),
      allocate allocate_index state self obj1 = Except.ok (r, self1, state1) →
      self1.allocator_ = (allocate_index self.allocator_ false).2.2 ∧
      self1.allocator_.chunks_ = (allocate_index self.allocator_ false).2.2.chunks_ := by
  refine ⟨rfl, ?_⟩
  intro r self1 state1 h
  rw [allocate_eq] at h
  by_cases hb : (allocate_index self.allocator_ false).1 > UINT32_MAX
  · simp [hb] at h
  · simp only [hb, if_false, Except.ok.injEq, Prod.mk.injEq] at h
    obtain ⟨_, rfl, _⟩ := h
    exact ⟨rfl, rfl⟩

/-- Scenario A, slot `i1`: the unstamped record of slot 1 is the cleared record
after the pass and does not carry the stamp 7. -/
theorem deallocate_headers_slot_witness :
    (0 < traced_registry.allocator_.chunks_size ∧ 1 < traced_registry.allocator_.cChunkSize ∧
      (traced_registry.allocator_.chunks_ 0 1).marked_p 7 = false) ∧
    ((scan traced_registry 7).1.allocator_.chunks_ 0 1
        = (traced_registry.allocator_.chunks_ 0 1).clear ∧
      ((scan traced_registry 7).1.allocator_.chunks_ 0 1).marked_p 7 = false) :=
  ⟨⟨by decide, by decide, by decide⟩,
    (deallocate_headers_slot 48 traced_registry 7 0 1 (by decide) (by decide)).2.2.1
      (by decide)⟩

/-- Scenario A, chunk 0: its entry of `chunk_marks` is `true` exactly when one of
its four slots carries the stamp 7. -/
theorem deallocate_headers_chunk_marks_witness :
    0 < traced_registry.allocator_.chunks_size ∧
    ((scan traced_registry 7).2[0]? = some true ↔
      ∃ j, j < traced_registry.allocator_.cChunkSize ∧
        (traced_registry.allocator_.chunks_ 0 j).marked_p 7 = true) :=
  ⟨by decide, ((deallocate_headers_chunk_marks traced_registry 7).2.2 0 (by decide)).1⟩

/-- Scenario A, slot `i1` again: not stamped before the first scan, it is not
stamped after it. -/
theorem scan_idempotent_witness :
    (traced_registry.allocator_.chunks_ 0 1).marked_p 7 = false ∧
    ((scan traced_registry 7).1.allocator_.chunks_ 0 1).marked_p 7 = false :=
  ⟨by decide, (scan_idempotent traced_registry 7).2.2.1 0 1 (by decide)⟩

/-- The first allocation from a fresh registry returns the index 0 the allocator
issued and the pointer to the slot 0 of chunk 0; an allocator past the ceiling
ends the call in `rubinius::bug`. -/
theorem allocate_fatal_iff_witness :
    ((Allocator.allocate_index 8 fresh_registry.allocator_ false).1 ≤ UINT32_MAX ∧
      ∃ self1 state1,
        allocate (Allocator.allocate_index 8) { full_collections := [] } fresh_registry
            { header := 10 } =
          Except.ok
            ({ header :=
                (Allocator.allocate_index 8 fresh_registry.allocator_ false).2.2.from_index
                  (Allocator.allocate_index 8 fresh_registry.allocator_ false).1
               index := (Allocator.allocate_index 8 fresh_registry.allocator_ false).1 },
              self1, state1)) ∧
    ((Allocator.allocate_index 8 exhausted_registry.allocator_ false).1 > UINT32_MAX ∧
      ∃ msg,
        allocate (Allocator.allocate_index 8) { full_collections := [] } exhausted_registry
            { header := 10 } = Except.error msg) :=
  ⟨⟨by decide,
      (allocate_fatal_iff (Allocator.allocate_index 8) { full_collections := [] }
        fresh_registry { header := 10 }).2.2 (by decide)⟩,
    ⟨by decide,
      (allocate_fatal_iff (Allocator.allocate_index 8) { full_collections := [] }
        exhausted_registry { header := 10 }).1.mpr (by decide)⟩⟩

/-- Scenario B: the nine allocations all return, `needs_gc` is seen once, and
`collections_` goes from 0 to 1. -/
theorem allocate_collections_witness :
    nine_allocations = Except.ok (nine_returned.1, nine_returned.2.1, nine_returned.2.2) ∧
    (nine_returned.1.filter fun c => c.needs_gc).length = 1 ∧
    nine_returned.1.length = nine_owners.length ∧
    nine_returned.2.1.diagnostics_.collections_ =
      fresh_registry.diagnostics_.collections_ +
        (nine_returned.1.filter fun c => c.needs_gc).length :=
  ⟨rfl, by decide,
    (allocate_collections.2 (Allocator.allocate_index 8) { full_collections := [] }
      fresh_registry nine_owners nine_returned.1 nine_returned.2.1 nine_returned.2.2 rfl).1,
    (allocate_collections.2 (Allocator.allocate_index 8) { full_collections := [] }
      fresh_registry nine_owners nine_returned.1 nine_returned.2.1 nine_returned.2.2 rfl).2.1⟩

/-- Scenario A before the trace: the three allocations return the indices the
allocator issued, 0, 1 and 2. -/
theorem allocate_indices_distinct_witness :
    three_allocations = Except.ok (three_returned.1, three_returned.2.1, three_returned.2.2) ∧
    three_returned.1.map (fun c => c.issued) = [0, 1, 2] ∧
    three_returned.1.map (fun c => c.allocation.index)
      = three_returned.1.map (fun c => c.issued) :=
  ⟨rfl, by decide,
    (allocate_indices_distinct (Allocator.allocate_index 8) { full_collections := [] }
      fresh_registry [{ header := 10 }, { header := 11 }, { header := 12 }]
      three_returned.1 three_returned.2.1 three_returned.2.2 rfl).1⟩

/-- Dirty diagnostics with the counters 2, 96 and 1 are logged once: the first
`log()` writes the line "inflated headers: diagnostics: objects: 2, bytes: 96,
collections: 1", the second writes nothing. -/
theorem log_gated_witness :
    dirty_diagnostics.modified_p = true ∧
    (dirty_diagnostics.log []).2 =
      ["inflated headers: diagnostics: objects: 2, bytes: 96, collections: 1\n"] ∧
    (dirty_diagnostics.log []).1.log (dirty_diagnostics.log []).2 = dirty_diagnostics.log [] :=
  ⟨by decide, ((log_gated dirty_diagnostics []).2 (by decide)).1.trans (by decide),
    ((log_gated dirty_diagnostics []).2 (by decide)).2.2.2.2.2⟩

/-- The first allocation from a fresh registry leaves the allocator as
`allocate_index` left it, whoever the owner is. -/
theorem allocate_owner_independent_witness :
    allocate (Allocator.allocate_index 8) { full_collections := [] } fresh_registry
        { header := 10 } =
      Except.ok (first_returned.1, first_returned.2.1, first_returned.2.2) ∧
    first_returned.2.1.allocator_ =
      (Allocator.allocate_index 8 fresh_registry.allocator_ false).2.2 :=
  ⟨rfl,
    ((allocate_owner_independent (Allocator.allocate_index 8) { full_collections := [] }
      fresh_registry { header := 10 } { header := 11 }).2
      first_returned.1 first_returned.2.1 first_returned.2.2 rfl).1⟩

/-- Scenario A: the pass with the stamp 7 counts the two stamped records,
whatever `objects_` held before. -/
theorem deallocate_headers_objects_witness :
    (deallocate_headers Allocator.rebuild_freelist 48 traced_registry 7).diagnostics_.objects_
      = 2 :=
  (deallocate_headers_objects Allocator.rebuild_freelist 48 traced_registry 7).trans
    (by decide)

/-- Scenario A: after the pass the diagnostics are dirty and `bytes_` is the two
live records times 48 bytes. -/
theorem deallocate_headers_bytes_witness :
    (deallocate_headers Allocator.rebuild_freelist 48 traced_registry 7).diagnostics_.objects_
      = 2 ∧
    (deallocate_headers Allocator.rebuild_freelist 48 traced_registry 7).diagnostics_.bytes_
      = (deallocate_headers Allocator.rebuild_freelist 48 traced_registry
          7).diagnostics_.objects_ * 48 ∧
    (deallocate_headers Allocator.rebuild_freelist 48 traced_registry
      7).diagnostics_.modified_p = true :=
  ⟨by decide, (deallocate_headers_bytes 48 traced_registry 7).2,
    ((deallocate_headers_bytes 48 traced_registry 7).1 Allocator.rebuild_freelist).2⟩

end InflatedHeaders

end memory
end rubinius
